import Mathlib

/-!
Verification development for the mslearn-ai-agents repository.

The embedding covers:
- the A2A title-agent executor
  (Labfiles/06-build-remote-agents-with-a2a/python/title_agent/agent_executor.py),
- the title agent conversation logic
  (Labfiles/06-build-remote-agents-with-a2a/python/title_agent/agent.py),
- the sequential orchestration consumer
  (Labfiles/05-agent-orchestration/Python/agents.py).

External awaited calls (Azure clients, the a2a TaskUpdater transport, the
agent-framework workflow engine) are modelled as explicit parameters or, where
the specification is the only description available, as definitions whose doc
comment says so.
-/

/-- Lifecycle states of an A2A task, mirroring a2a.types.TaskState. -/
inductive TaskState where
  | submitted
  | working
  | input_required
  | completed
  | failed
  | canceled
deriving DecidableEq, Repr

/-- A text message built by new_agent_text_message(text, context_id). -/
structure AgentTextMessage where
  text : String
  contextId : String
deriving DecidableEq, Repr

/-- One status-update event published by the TaskUpdater to the event queue. -/
structure TaskEvent where
  state : TaskState
  message : Option AgentTextMessage
deriving DecidableEq, Repr

/-- An a2a TextPart as seen by the executor: its text field, which Python
treats as falsy when it is None or the empty string. -/
structure TextPart where
  text : Option String
deriving DecidableEq, Repr

/-- An a2a A2APart: the root union member, None here standing for a Python-falsy
root value. -/
structure A2APart where
  root : Option TextPart
deriving DecidableEq, Repr

/-- The text the executor can extract from one part: the evaluation of
message_parts[0].root and message_parts[0].root.text under Python truthiness
(agent_executor.py lines 79 to 83). Returns none exactly when the source
raises the ValueError for a missing text. -/
def A2APart.extractText (p : A2APart) : Option String :=
  match p.root with
  | none => none
  | some t =>
    match t.text with
    | none => none
    | some s => if s = "" then none else some s

/-- Python exceptions distinguished by the except clauses of
FoundryAgentExecutor._process_request. -/
inductive PyExc where
  | valueError (msg : String)
  | attributeError (msg : String)
  | other (msg : String)
deriving DecidableEq, Repr

/-- True for the exceptions caught by the except ValueError clause. -/
def PyExc.isValueError : PyExc → Bool
  | .valueError _ => true
  | _ => false

/-- Input validation of FoundryAgentExecutor._process_request, lines 75 to 83:
raise ValueError when message_parts is empty or the first part has no
extractable text, otherwise return message_parts[0].root.text. -/
def validateParts (message_parts : List A2APart) : Except PyExc String :=
  match message_parts with
  | [] => .error (.valueError "No message parts provided")
  | p :: _ =>
    match p.extractText with
    | none => .error (.valueError "Message part does not contain text")
    | some s => .ok s

/-- Event published by TaskUpdater.submit(). -/
def submitEvent : TaskEvent := ⟨.submitted, none⟩

/-- Event published by TaskUpdater.start_work(). -/
def startWorkEvent : TaskEvent := ⟨.working, none⟩

/-- Event published by task_updater.running() at line 89: a further transition
of the task to the working state. -/
def runningEvent : TaskEvent := ⟨.working, none⟩

/-- Event published by task_updater.completed(message=...) at lines 95 to 97. -/
def completedEvent (text contextId : String) : TaskEvent :=
  ⟨.completed, some ⟨text, contextId⟩⟩

/-- Event published by task_updater.failed(message=...). -/
def failedEvent (text contextId : String) : TaskEvent :=
  ⟨.failed, some ⟨text, contextId⟩⟩

/-- The generic caller-visible message of the except Exception handler,
agent_executor.py line 109. -/
def genericFailureText : String := "Title Agent failed to process the request."

/-- Events published by the two except handlers of _process_request,
lines 99 to 110: a ValueError yields the descriptive validation message, any
other exception yields the fixed generic message. -/
def handleExc (e : PyExc) (context_id : String) : List TaskEvent :=
  match e with
  | .valueError m => [failedEvent ("Invalid request: " ++ m) context_id]
  | _ => [failedEvent genericFailureText context_id]

/-- FoundryAgentExecutor._process_request, lines 73 to 110, as the list of
events it publishes to the task updater. The awaited external calls are
parameters: getAgent is the outcome of self._get_or_create_agent() (line 86)
and worker the outcome of the awaited agent call at line 92. The try block
runs validation, then getAgent, then task_updater.running(), then the worker;
the first exception aborts the block and is routed to handleExc. -/
def processRequest (getAgent : Except PyExc Unit)
    (worker : String → Except PyExc String)
    (message_parts : List A2APart) (context_id : String) : List TaskEvent :=
  match validateParts message_parts with
  | .error e => handleExc e context_id
  | .ok user_message =>
    match getAgent with
    | .error e => handleExc e context_id
    | .ok _ =>
      match worker user_message with
      | .ok response => [runningEvent, completedEvent response context_id]
      | .error e => runningEvent :: handleExc e context_id

/-- Method names defined on class TitleAgent in agent.py (besides the
implicit constructor): create_agent (line 49) and run_conversation
(line 82). No method named generate_title exists anywhere in the repository. -/
def titleAgentMethodNames : List String := ["create_agent", "run_conversation"]

/-- Python attribute lookup of a method name on an object with the given
method table: an absent name raises AttributeError. -/
def pyGetMethod (methods : List String) (name : String) : Except PyExc Unit :=
  if name ∈ methods then .ok () else .error (.attributeError name)

/-- The awaited call at agent_executor.py line 92 is
agent.generate_title(user_message) with agent a TitleAgent. The attribute
lookup of generate_title on TitleAgent fails, so the call raises
AttributeError before any remote invocation; no method body exists to run. -/
def generateTitleCall (user_message : String) : Except PyExc String :=
  match pyGetMethod titleAgentMethodNames "generate_title" with
  | .error e => .error e
  | .ok _ => .error (.other user_message)

/-- FoundryAgentExecutor.execute, lines 112 to 134: TaskUpdater.submit(),
TaskUpdater.start_work(), then _process_request on context.message. -/
def executeTrace (getAgent : Except PyExc Unit)
    (worker : String → Except PyExc String)
    (message_parts : List A2APart) (context_id : String) : List TaskEvent :=
  submitEvent :: startWorkEvent ::
    processRequest getAgent worker message_parts context_id

/-- FoundryAgentExecutor.cancel, lines 136 to 154: unconditionally publish a
single failed event carrying the cancellation notice. The function reads no
task state and calls no worker. -/
def cancelTrace (context_id : String) : List TaskEvent :=
  [failedEvent "Task cancelled by user" context_id]

/-- A concrete valid inbound part used for evaluations. -/
def validTitlePart : A2APart := ⟨some ⟨some "Generate a title for an article about AI"⟩⟩


/-- True on the terminal lifecycle states of the task state machine. -/
def TaskState.isTerminal : TaskState → Bool
  | .completed | .failed | .canceled => true
  | _ => false

/-- One legal transition of the task lifecycle: the transition table of the
specification (section 4.3), from an optional current state (none before
submit) to a next state, including the allowed working to working no-op. -/
def lifecycleStep : Option TaskState → TaskState → Bool
  | none, .submitted => true
  | some .submitted, .working => true
  | some .working, .working => true
  | some .working, .completed => true
  | some .working, .failed => true
  | _, _ => false

/-- A list of published states is a valid path of the lifecycle machine when
each element is a legal transition from the state reached so far. -/
def validPathFrom : Option TaskState → List TaskState → Bool
  | _, [] => true
  | cur, s :: rest => lifecycleStep cur s && validPathFrom (some s) rest

/-- No state occurs after a terminal state in the list. -/
def noStateAfterTerminal : List TaskState → Bool
  | [] => true
  | s :: rest => if s.isTerminal then rest.isEmpty else noStateAfterTerminal rest

/-- Modelled from the spec: the terminal-state guard of the task lifecycle.
The guard itself lives in the external a2a TaskUpdater collaborator, outside
this repository; section 4.3 requires attempted transitions out of a terminal
state to be rejected or ignored. The guard publishes an attempted state only
when it is a legal transition from the state reached so far and drops it
otherwise. -/
def applyGuarded : Option TaskState → List TaskState → List TaskState
  | _, [] => []
  | cur, s :: rest =>
    if lifecycleStep cur s then s :: applyGuarded (some s) rest
    else applyGuarded cur rest

/-- The states of a list of published task events. -/
def eventStates (events : List TaskEvent) : List TaskState :=
  events.map TaskEvent.state

/-- Role of a message in a thread, mirroring azure.ai.agents MessageRole as
used in agent.py: USER for sent messages, AGENT for model responses. -/
inductive MessageRole where
  | user
  | agent
deriving DecidableEq, Repr

/-- One text content entry of a thread message: text_msg.text.value. -/
structure ThreadTextMessage where
  value : String
deriving DecidableEq, Repr

/-- One message returned by client.messages.list, as read by agent.py. -/
structure ThreadMessage where
  role : MessageRole
  text_messages : List ThreadTextMessage
deriving DecidableEq, Repr

/-- The extraction loop of TitleAgent.run_conversation, agent.py lines 143 to
156: walk the messages (already newest first), and at the first message whose
role is AGENT and whose text_messages list is non-empty (Python truthiness),
collect the text values of that one message and stop. -/
def extractResponses : List ThreadMessage → List String
  | [] => []
  | m :: rest =>
    if m.role = .agent && !m.text_messages.isEmpty then
      m.text_messages.map ThreadTextMessage.value
    else
      extractResponses rest

/-- TitleAgent.run_conversation, agent.py lines 82 to 160, parametrized over
the outcomes of the external Azure calls: runFailed is the test
run.status == failed at line 133, lastError the string form of
run.last_error, and messages the thread messages returned at line 140 in
descending order. The user_message argument only feeds the external
messages.create call and does not influence the local result. -/
def run_conversation (_user_message : String) (runFailed : Bool)
    (lastError : String) (messages : List ThreadMessage) : List String :=
  if runFailed then ["Error: " ++ lastError]
  else
    let responses := extractResponses messages
    if responses.isEmpty then ["No response received"] else responses

/-- Role of a chat message, mirroring agent_framework Role as used in
agents.py. -/
inductive Role where
  | user
  | assistant
  | system
  | tool
deriving DecidableEq, Repr

/-- A chat message of the orchestration workflow, with the fields read by
agents.py: role, optional author_name and text. -/
structure ChatMessage where
  role : Role
  author_name : Option String
  text : String
deriving DecidableEq, Repr

/-- The display-name computation of agents.py line 139:
name = msg.author_name or (assistant if msg.role == Role.ASSISTANT else user).
Python treats both None and the empty string as falsy, so either falls back
to the role-based default. -/
def displayName (msg : ChatMessage) : String :=
  match msg.author_name with
  | some n =>
    if n = "" then (if msg.role = .assistant then "assistant" else "user") else n
  | none => if msg.role = .assistant then "assistant" else "user"

/-- A pipeline participant: given the whole conversation so far, it produces
the messages of its stage. -/
def AgentHandle : Type := List ChatMessage → List ChatMessage

/-- One streamed output event of a pipeline run: the stage index and the
messages produced by that stage. -/
structure PipelineOutputEvent where
  stage_index : Nat
  messages : List ChatMessage
deriving DecidableEq, Repr

/-- Modelled from the spec: the sequential workflow engine behind
SequentialBuilder().participants(...).build() and workflow.run_stream used by
agents.py lines 112 to 127 lives in the external agent_framework package, so
its stage loop is taken from section 4.1 of the specification: starting from
the given conversation, each participant in list order is invoked with the
entire current conversation, its messages are appended, and one output event
per stage is emitted carrying exactly that stage's messages. -/
def runStages (participants : List AgentHandle) (conv : List ChatMessage)
    (idx : Nat) : List PipelineOutputEvent :=
  match participants with
  | [] => []
  | p :: rest =>
    let stageMsgs := p conv
    ⟨idx, stageMsgs⟩ :: runStages rest (conv ++ stageMsgs) (idx + 1)

/-- Modelled from the spec: SequentialPipeline.run of section 4.1 seeds the
conversation with one user message holding the initial input and runs the
stage loop from stage index 0. -/
def SequentialPipeline.run (participants : List AgentHandle)
    (initial_input : String) : List PipelineOutputEvent :=
  runStages participants [⟨.user, none, initial_input⟩] 0

/-- Program counter of one caller of
FoundryAgentExecutor._get_or_create_agent (agent_executor.py lines 39 to 53):
start before the call body has run, done h once the call returned handle h.
There is no intermediate point: the awaited factory chain
create_foundry_title_agent, TitleAgent.create_agent, AgentsClient.create_agent
(agent.py lines 163 to 188 and 49 to 80) is built on the synchronous
azure.ai.agents client and contains no suspension point, so awaiting it runs
inline on the single-threaded asyncio event loop and no other caller can run
between the check at line 51 and the assignment at line 52: the whole body is
one atomic step per caller. -/
inductive CallerPC where
  | start
  | done (handle : Nat)
deriving DecidableEq, Repr

/-- State of one executor shared by several concurrent callers of
_get_or_create_agent: the cache field self._foundry_agent (handles are
numbered in creation order, distinct numbers meaning distinct TitleAgent
objects), the number of factory invocations so far, and each caller program
counter. -/
structure CacheSystem where
  cache : Option Nat
  created : Nat
  callers : List CallerPC
deriving DecidableEq, Repr

/-- Run the entire _get_or_create_agent body of caller i as one atomic step:
a filled cache is returned as is; an empty cache runs the factory once,
assigns the fresh handle to the cache and returns it. A caller that has
already returned, or an index with no caller, changes nothing. -/
def stepCaller (s : CacheSystem) (i : Nat) : CacheSystem :=
  match s.callers[i]? with
  | none => s
  | some .start =>
    match s.cache with
    | some h => { s with callers := s.callers.set i (.done h) }
    | none =>
      { cache := some (s.created + 1), created := s.created + 1,
        callers := s.callers.set i (.done (s.created + 1)) }
  | some (.done _) => s

/-- Run a schedule: a list of caller indices, each entry running that caller
if it has not run yet. Every interleaving of the concurrent callers on the
event loop is some such schedule. -/
def runSchedule (s : CacheSystem) (sched : List Nat) : CacheSystem :=
  sched.foldl stepCaller s

/-- Initial system: empty cache, no factory invocation, n callers about to
enter _get_or_create_agent. -/
def initCache (n : Nat) : CacheSystem :=
  ⟨none, 0, List.replicate n .start⟩

/-- Invariant of the cache system: either no creation has happened, the
cache is empty and every caller is still at start, or exactly one creation
has happened, the cache holds handle 1 and every caller is at start or has
returned handle 1. -/
def CacheInv (s : CacheSystem) : Prop :=
  (s.cache = none ∧ s.created = 0 ∧ ∀ pc ∈ s.callers, pc = CallerPC.start) ∨
  (s.cache = some 1 ∧ s.created = 1 ∧
    ∀ pc ∈ s.callers, pc = CallerPC.start ∨ pc = CallerPC.done 1)

/-! Shared lemmas about the lifecycle machine and the executor traces. -/

/-- Both except handlers publish exactly one failed event. -/
theorem eventStates_handleExc (e : PyExc) (ctx : String) :
    eventStates (handleExc e ctx) = [.failed] := by
  cases e <;> rfl

/-- Equation: a validation failure short-circuits _process_request into the
matching except handler. -/
theorem processRequest_validation_error (g : Except PyExc Unit)
    (w : String → Except PyExc String) (parts : List A2APart) (ctx : String)
    (e : PyExc) (hv : validateParts parts = .error e) :
    processRequest g w parts ctx = handleExc e ctx := by
  unfold processRequest
  rw [hv]

/-- Equation: when validation succeeds and the agent is obtained, the events
are determined by the worker call outcome. -/
theorem processRequest_worker_ok (w : String → Except PyExc String)
    (parts : List A2APart) (ctx txt r : String)
    (hv : validateParts parts = .ok txt) (hw : w txt = .ok r) :
    processRequest (.ok ()) w parts ctx = [runningEvent, completedEvent r ctx] := by
  unfold processRequest
  rw [hv]
  show (match w txt with
    | .ok response => [runningEvent, completedEvent response ctx]
    | .error e => runningEvent :: handleExc e ctx) = _
  rw [hw]

/-- Equation: when validation succeeds, the agent is obtained and the worker
call raises, the running event is followed by the handler events. -/
theorem processRequest_worker_error (w : String → Except PyExc String)
    (parts : List A2APart) (ctx txt : String) (e : PyExc)
    (hv : validateParts parts = .ok txt) (hw : w txt = .error e) :
    processRequest (.ok ()) w parts ctx = runningEvent :: handleExc e ctx := by
  unfold processRequest
  rw [hv]
  show (match w txt with
    | .ok response => [runningEvent, completedEvent response ctx]
    | .error e => runningEvent :: handleExc e ctx) = _
  rw [hw]

/-- Equation: a failure of _get_or_create_agent lands in the except handlers
without a running event. -/
theorem processRequest_getAgent_error (w : String → Except PyExc String)
    (parts : List A2APart) (ctx txt : String) (e : PyExc)
    (hv : validateParts parts = .ok txt) :
    processRequest (.error e) w parts ctx = handleExc e ctx := by
  unfold processRequest
  rw [hv]

/-- The events published by _process_request form one of three state lists:
a single failed event, or working then completed, or working then failed. -/
theorem processRequest_states (g : Except PyExc Unit)
    (w : String → Except PyExc String) (parts : List A2APart) (ctx : String) :
    eventStates (processRequest g w parts ctx) = [.failed] ∨
    eventStates (processRequest g w parts ctx) = [.working, .completed] ∨
    eventStates (processRequest g w parts ctx) = [.working, .failed] := by
  cases hv : validateParts parts with
  | error e =>
    rw [processRequest_validation_error g w parts ctx e hv]
    exact Or.inl (eventStates_handleExc e ctx)
  | ok txt =>
    cases g with
    | error e =>
      rw [processRequest_getAgent_error w parts ctx txt e hv]
      exact Or.inl (eventStates_handleExc e ctx)
    | ok u =>
      cases hw : w txt with
      | ok r =>
        rw [processRequest_worker_ok w parts ctx txt r hv hw]
        exact Or.inr (Or.inl rfl)
      | error e =>
        rw [processRequest_worker_error w parts ctx txt e hv hw]
        refine Or.inr (Or.inr ?_)
        cases e <;> rfl

/-- The guard never publishes an illegal transition: whatever states are
attempted, the published list is a valid path from the starting state. -/
theorem applyGuarded_validPath (evs : List TaskState) :
    ∀ cur, validPathFrom cur (applyGuarded cur evs) = true := by
  induction evs with
  | nil => intro cur; rfl
  | cons s rest ih =>
    intro cur
    by_cases h : lifecycleStep cur s = true
    · simp [applyGuarded, h, validPathFrom, ih]
    · simp [applyGuarded, h, ih]

/-- Terminal states have no outgoing transition in the lifecycle table. -/
theorem terminal_no_step (s t : TaskState) (hs : s.isTerminal = true) :
    lifecycleStep (some s) t = false := by
  cases s <;> cases t <;> simp_all [TaskState.isTerminal, lifecycleStep]

/-- A valid path never continues past a terminal state. -/
theorem validPath_noStateAfterTerminal :
    ∀ (l : List TaskState) (cur : Option TaskState),
      validPathFrom cur l = true → noStateAfterTerminal l = true := by
  intro l
  induction l with
  | nil => intro cur h; rfl
  | cons s rest ih =>
    intro cur h
    rw [validPathFrom, Bool.and_eq_true] at h
    obtain ⟨h1, h2⟩ := h
    by_cases hs : s.isTerminal = true
    · cases rest with
      | nil => simp [noStateAfterTerminal, hs]
      | cons t r =>
        rw [validPathFrom, Bool.and_eq_true] at h2
        have := terminal_no_step s t hs
        simp_all
    · simp only [noStateAfterTerminal, hs, if_neg, Bool.not_eq_true]
      simpa using ih (some s) h2

/-- The execute entry point contributes a submitted and a working state in
front of whatever _process_request publishes. -/
theorem eventStates_executeTrace (g : Except PyExc Unit)
    (w : String → Except PyExc String) (parts : List A2APart) (ctx : String) :
    eventStates (executeTrace g w parts ctx) =
      .submitted :: .working :: eventStates (processRequest g w parts ctx) := rfl

/-- Claim C4: for every task, the lifecycle events published by execute and
cancel taken together form a valid path of the transition table submitted,
working, then a terminal state: the trace of any execute call is a valid
path in which no state follows a terminal one, and when the cancel events
are appended behind it, the guarded lifecycle (which rejects or ignores
transitions out of a terminal state) still publishes only a valid path with
no state after a terminal one. -/
theorem c4_lifecycle_valid_paths (g : Except PyExc Unit)
    (w : String → Except PyExc String) (parts : List A2APart)
    (ctx ctx2 : String) :
    validPathFrom none (eventStates (executeTrace g w parts ctx)) = true ∧
    noStateAfterTerminal (eventStates (executeTrace g w parts ctx)) = true ∧
    validPathFrom none (applyGuarded none
      (eventStates (executeTrace g w parts ctx) ++ eventStates (cancelTrace ctx2))) = true ∧
    noStateAfterTerminal (applyGuarded none
      (eventStates (executeTrace g w parts ctx) ++ eventStates (cancelTrace ctx2))) = true := by
  have hvalid : validPathFrom none (eventStates (executeTrace g w parts ctx)) = true := by
    rw [eventStates_executeTrace]
    rcases processRequest_states g w parts ctx with h | h | h <;> rw [h] <;> rfl
  refine ⟨hvalid, validPath_noStateAfterTerminal _ none hvalid, ?_, ?_⟩
  · exact applyGuarded_validPath _ none
  · exact validPath_noStateAfterTerminal _ none (applyGuarded_validPath _ none)

/-- Claim C9: execute publishes a submitted event and then a working event
before any validation: the first two events are the same for every request,
a request failing validation observes the states submitted, working, failed,
and a request passing validation with a successful worker call observes the
additional working to working no-op before completed. -/
theorem c9_submitted_working_first (g : Except PyExc Unit)
    (w : String → Except PyExc String) (parts : List A2APart) (ctx : String) :
    (executeTrace g w parts ctx).take 2 = [submitEvent, startWorkEvent] ∧
    (∀ e, validateParts parts = .error e →
      eventStates (executeTrace g w parts ctx) = [.submitted, .working, .failed]) ∧
    (∀ txt r, validateParts parts = .ok txt → w txt = .ok r →
      eventStates (executeTrace (.ok ()) w parts ctx) =
        [.submitted, .working, .working, .completed]) := by
  refine ⟨rfl, ?_, ?_⟩
  · intro e he
    rw [eventStates_executeTrace, processRequest_validation_error g w parts ctx e he,
      eventStates_handleExc]
  · intro txt r hv hw
    rw [eventStates_executeTrace, processRequest_worker_ok w parts ctx txt r hv hw]
    rfl

/-- Witness for C9 at concrete inputs: an empty request fails validation after
submitted and working, and a one-part request with a successful worker shows
the extra working no-op before completed. -/
theorem c9_submitted_working_first_witness :
    eventStates (executeTrace (.ok ()) generateTitleCall [] "c") =
      [.submitted, .working, .failed] ∧
    eventStates (executeTrace (.ok ()) (fun _ => .ok "A Fine Title") [validTitlePart] "c") =
      [.submitted, .working, .working, .completed] :=
  ⟨(c9_submitted_working_first (.ok ()) generateTitleCall [] "c").2.1
      (.valueError "No message parts provided") rfl,
    (c9_submitted_working_first (.ok ()) (fun _ => .ok "A Fine Title") [validTitlePart] "c").2.2
      "Generate a title for an article about AI" "A Fine Title" rfl rfl⟩

/-- Claim C6: cancel publishes, for every context, exactly one failed event
carrying the cancellation notice; it is a transition into a terminal state.
The trace is a constant in everything except the context id: cancelTrace
reads no task state and takes no worker, so no in-flight call is touched. -/
theorem c6_cancel_unconditional (ctx : String) :
    cancelTrace ctx = [failedEvent "Task cancelled by user" ctx] ∧
    eventStates (cancelTrace ctx) = [.failed] ∧
    TaskState.failed.isTerminal = true :=
  ⟨rfl, rfl, rfl⟩

/-- Claim C2: validation fails with a ValueError exactly when message_parts is
empty or its first part has no extractable text, and on such a failure the
published events are the single failed event with the descriptive message,
independent of the agent getter and of the worker, which are therefore never
obtained nor invoked. -/
theorem c2_validation_characterization (parts : List A2APart) (ctx : String)
    (g g2 : Except PyExc Unit) (w w2 : String → Except PyExc String) :
    ((∃ m, validateParts parts = .error (.valueError m)) ↔
      parts = [] ∨ ∃ p ps, parts = p :: ps ∧ p.extractText = none) ∧
    (∀ m, validateParts parts = .error (.valueError m) →
      processRequest g w parts ctx =
        [failedEvent ("Invalid request: " ++ m) ctx] ∧
      processRequest g w parts ctx = processRequest g2 w2 parts ctx) := by
  constructor
  · cases parts with
    | nil =>
      constructor
      · intro _; exact Or.inl rfl
      · intro _; exact ⟨"No message parts provided", rfl⟩
    | cons p ps =>
      cases hx : p.extractText with
      | none =>
        constructor
        · intro _; exact Or.inr ⟨p, ps, rfl, hx⟩
        · intro _
          refine ⟨"Message part does not contain text", ?_⟩
          show (match p.extractText with
            | none => Except.error (PyExc.valueError "Message part does not contain text")
            | some s => Except.ok s) = _
          rw [hx]
      | some s =>
        constructor
        · rintro ⟨m, hm⟩
          have hok : validateParts (p :: ps) = .ok s := by
            show (match p.extractText with
              | none => Except.error (PyExc.valueError "Message part does not contain text")
              | some s => Except.ok s) = _
            rw [hx]
          rw [hok] at hm
          cases hm
        · rintro (h | ⟨q, qs, hq, hqx⟩)
          · cases h
          · obtain ⟨rfl, rfl⟩ : q = p ∧ qs = ps := by
              injection hq with h1 h2; exact ⟨h1.symm, h2.symm⟩
            rw [hx] at hqx
            cases hqx
  · intro m hm
    have h1 := processRequest_validation_error g w parts ctx (.valueError m) hm
    have h2 := processRequest_validation_error g2 w2 parts ctx (.valueError m) hm
    exact ⟨h1, by rw [h1, h2]⟩

/-- Witness for C2 at the empty request: the characterization applies and the
published events are exactly the descriptive validation failure. -/
theorem c2_validation_characterization_witness :
    processRequest (.ok ()) generateTitleCall [] "c" =
      [failedEvent "Invalid request: No message parts provided" "c"] ∧
    processRequest (.ok ()) generateTitleCall [] "c" =
      processRequest (.error (.other "factory down")) (fun _ => .ok "t") [] "c" :=
  (c2_validation_characterization [] "c" (.ok ()) (.error (.other "factory down"))
    generateTitleCall (fun _ => .ok "t")).2 "No message parts provided" rfl

/-- Claim C3: when the worker call raises any non-ValueError exception, the
task ends with the working event followed by a failed event carrying the
fixed generic message, and the published events are independent of the
internal error, so no caller-visible message can carry the raw error text. -/
theorem c3_opaque_error_generic (parts : List A2APart) (ctx txt : String)
    (e e2 : PyExc) (hv : validateParts parts = .ok txt)
    (he : e.isValueError = false) (he2 : e2.isValueError = false) :
    processRequest (.ok ()) (fun _ => .error e) parts ctx =
      [runningEvent, failedEvent genericFailureText ctx] ∧
    processRequest (.ok ()) (fun _ => .error e) parts ctx =
      processRequest (.ok ()) (fun _ => .error e2) parts ctx := by
  have h1 := processRequest_worker_error (fun _ => .error e) parts ctx txt e hv rfl
  have h2 := processRequest_worker_error (fun _ => .error e2) parts ctx txt e2 hv rfl
  constructor
  · rw [h1]
    cases e with
    | valueError m => simp [PyExc.isValueError] at he
    | attributeError m => rfl
    | other m => rfl
  · rw [h1, h2]
    cases e <;> cases e2 <;> simp_all [PyExc.isValueError, handleExc]

/-- Witness for C3: the AttributeError actually raised by the source and an
arbitrary opaque quota error produce the same caller-visible events. -/
theorem c3_opaque_error_generic_witness :
    processRequest (.ok ()) (fun _ => .error (.attributeError "generate_title"))
      [validTitlePart] "c" =
      [runningEvent, failedEvent genericFailureText "c"] ∧
    processRequest (.ok ()) (fun _ => .error (.attributeError "generate_title"))
      [validTitlePart] "c" =
      processRequest (.ok ()) (fun _ => .error (.other "quota exceeded"))
        [validTitlePart] "c" :=
  c3_opaque_error_generic [validTitlePart] "c"
    "Generate a title for an article about AI"
    (.attributeError "generate_title") (.other "quota exceeded") rfl rfl rfl

/-- Claim C1, evaluation at the failing input: the method generate_title does
not exist on TitleAgent, so the awaited call of execute on a validated
one-part request raises AttributeError and the task ends failed with the
generic message instead of completed with a response text. -/
theorem c1_generate_title_missing :
    "generate_title" ∉ titleAgentMethodNames ∧
    generateTitleCall "Generate a title for an article about AI" =
      .error (.attributeError "generate_title") ∧
    executeTrace (.ok ()) generateTitleCall [validTitlePart] "ctx-c1" =
      [submitEvent, startWorkEvent, runningEvent,
        failedEvent genericFailureText "ctx-c1"] := by
  refine ⟨?_, rfl, rfl⟩
  decide

/-- Claim C10: run_conversation never returns the empty list: on run failure
it returns the single error string, otherwise the extracted agent responses,
falling back to the fixed default when no agent text message is found. -/
theorem c10_run_conversation_nonempty (um le : String) (rf : Bool)
    (messages : List ThreadMessage) :
    run_conversation um rf le messages ≠ [] ∧
    (rf = true → run_conversation um rf le messages = ["Error: " ++ le]) ∧
    (rf = false → extractResponses messages = [] →
      run_conversation um rf le messages = ["No response received"]) ∧
    (rf = false → extractResponses messages ≠ [] →
      run_conversation um rf le messages = extractResponses messages) := by
  cases rf with
  | true =>
    refine ⟨?_, ?_, ?_, ?_⟩
    · simp [run_conversation]
    · intro _; rfl
    · intro h _; cases h
    · intro h _; cases h
  | false =>
    cases hr : extractResponses messages with
    | nil =>
      refine ⟨?_, ?_, ?_, ?_⟩
      · simp [run_conversation, hr]
      · intro h; cases h
      · intro _ _; simp [run_conversation, hr]
      · intro _ hne; exact absurd rfl hne
    | cons a l =>
      refine ⟨?_, ?_, ?_, ?_⟩
      · simp [run_conversation, hr]
      · intro h; cases h
      · intro _ h; cases h
      · intro _ _; simp [run_conversation, hr]

/-- Witness for C10: a failed run yields the error string; a successful run
with one agent text message yields that message; a successful run with no
agent message yields the default. -/
theorem c10_run_conversation_witness :
    run_conversation "t" true "rate limit" [] = ["Error: rate limit"] ∧
    run_conversation "t" false "" [⟨.agent, [⟨"A Title"⟩]⟩] = ["A Title"] ∧
    run_conversation "t" false "" [⟨.user, [⟨"t"⟩]⟩] = ["No response received"] :=
  ⟨(c10_run_conversation_nonempty "t" "rate limit" true []).2.1 rfl,
    (c10_run_conversation_nonempty "t" "" false [⟨.agent, [⟨"A Title"⟩]⟩]).2.2.2 rfl
      (by simp [extractResponses]),
    (c10_run_conversation_nonempty "t" "" false [⟨.user, [⟨"t"⟩]⟩]).2.2.1 rfl
      (by simp [extractResponses])⟩

/-- Claim C8, counterexample: a message whose author_name is present but
empty is displayed under the role default, not under its (empty) author
name, because Python truthiness treats the empty string like None. -/
theorem c8_empty_author_counterexample :
    (⟨Role.user, some "", "great app"⟩ : ChatMessage).author_name = some "" ∧
    displayName ⟨Role.user, some "", "great app"⟩ = "user" ∧
    displayName ⟨Role.user, some "", "great app"⟩ ≠ "" := by
  refine ⟨rfl, rfl, ?_⟩
  decide

/-- Claim C8 as amended: an absent or empty author name defaults by role,
assistant for assistant-role messages and user otherwise, and a present
non-empty author name is used unchanged. -/
theorem c8_author_default_amended (msg : ChatMessage) :
    ((msg.author_name = none ∨ msg.author_name = some "") →
      displayName msg =
        (if msg.role = Role.assistant then "assistant" else "user")) ∧
    (∀ n, msg.author_name = some n → n ≠ "" → displayName msg = n) := by
  obtain ⟨role, author, text⟩ := msg
  cases author with
  | none =>
    exact ⟨fun _ => rfl, fun n hn _ => by cases hn⟩
  | some a =>
    constructor
    · rintro (h | h)
      · cases h
      · obtain rfl : a = "" := by injection h
        simp [displayName]
    · intro n hn hne
      obtain rfl : a = n := by injection hn
      simp [displayName, hne]

/-- Witness for C8 as amended: an authorless assistant message displays as
assistant, and a named user message displays under its own name. -/
theorem c8_author_default_witness :
    displayName ⟨Role.assistant, none, "t"⟩ = "assistant" ∧
    displayName ⟨Role.user, some "Ann", "t"⟩ = "Ann" :=
  ⟨(c8_author_default_amended ⟨Role.assistant, none, "t"⟩).1 (Or.inl rfl),
    (c8_author_default_amended ⟨Role.user, some "Ann", "t"⟩).2 "Ann" rfl
      (by decide)⟩

/-- The stage loop emits events whose stage indices count up from the
starting index, one per remaining participant. -/
theorem runStages_stage_indices (participants : List AgentHandle) :
    ∀ (conv : List ChatMessage) (i : Nat),
      (runStages participants conv i).map PipelineOutputEvent.stage_index =
        List.range' i participants.length := by
  induction participants with
  | nil => intro conv i; rfl
  | cons p rest ih =>
    intro conv i
    simp only [runStages, List.map_cons, List.length_cons, List.range'_succ]
    exact congrArg (i :: ·) (ih (conv ++ p conv) (i + 1))

/-- Claim C7: a pipeline run emits exactly one output event per participant,
with stage indices 0, 1, ... in strictly ascending order: the finite list of
emitted events has the length of the participant list and its stage indices
are exactly List.range of that length. -/
theorem c7_one_event_per_participant (participants : List AgentHandle)
    (initial_input : String) :
    (SequentialPipeline.run participants initial_input).length =
      participants.length ∧
    (SequentialPipeline.run participants initial_input).map
        PipelineOutputEvent.stage_index = List.range participants.length := by
  have h := runStages_stage_indices participants [⟨.user, none, initial_input⟩] 0
  constructor
  · have hlen := congrArg List.length h
    simpa [SequentialPipeline.run] using hlen
  · rw [SequentialPipeline.run, h, List.range_eq_range']

/-- Equation: stepping an index with no caller changes nothing. -/
theorem stepCaller_none (s : CacheSystem) (i : Nat)
    (hp : s.callers[i]? = none) : stepCaller s i = s := by
  rw [stepCaller, hp]

/-- Equation: stepping a caller that has already returned changes nothing. -/
theorem stepCaller_done (s : CacheSystem) (i h : Nat)
    (hp : s.callers[i]? = some (.done h)) : stepCaller s i = s := by
  rw [stepCaller, hp]

/-- Equation: a caller entering the body while the cache is filled returns
the cached handle without touching the factory. -/
theorem stepCaller_start_hit (s : CacheSystem) (i h : Nat)
    (hp : s.callers[i]? = some .start) (hc : s.cache = some h) :
    stepCaller s i = ⟨some h, s.created, s.callers.set i (.done h)⟩ := by
  rw [stepCaller, hp, hc]

/-- Equation: a caller entering the body while the cache is empty runs the
factory once, assigns the fresh handle and returns it. -/
theorem stepCaller_start_miss (s : CacheSystem) (i : Nat)
    (hp : s.callers[i]? = some .start) (hc : s.cache = none) :
    stepCaller s i = ⟨some (s.created + 1), s.created + 1,
      s.callers.set i (.done (s.created + 1))⟩ := by
  rw [stepCaller, hp, hc]

/-- One atomic call preserves the cache invariant. -/
theorem stepCaller_inv (s : CacheSystem) (i : Nat) (h : CacheInv s) :
    CacheInv (stepCaller s i) := by
  cases hp : s.callers[i]? with
  | none => rw [stepCaller_none s i hp]; exact h
  | some pc =>
    rcases h with ⟨hc, hn, hall⟩ | ⟨hc, hn, hall⟩
    · have hpc := hall pc (List.getElem?_mem hp)
      subst hpc
      rw [stepCaller_start_miss s i hp hc, hn]
      refine Or.inr ⟨rfl, rfl, fun q hmem => ?_⟩
      rcases List.mem_or_eq_of_mem_set hmem with hm | rfl
      · exact Or.inl (hall q hm)
      · exact Or.inr rfl
    · rcases hall pc (List.getElem?_mem hp) with rfl | rfl
      · rw [stepCaller_start_hit s i 1 hp hc]
        refine Or.inr ⟨rfl, hn, fun q hmem => ?_⟩
        rcases List.mem_or_eq_of_mem_set hmem with hm | rfl
        · exact hall q hm
        · exact Or.inr rfl
      · rw [stepCaller_done s i 1 hp]
        exact Or.inr ⟨hc, hn, hall⟩

/-- The invariant holds along every schedule. -/
theorem runSchedule_inv (sched : List Nat) :
    ∀ s, CacheInv s → CacheInv (runSchedule s sched) := by
  induction sched with
  | nil => intro s h; exact h
  | cons j rest ih => intro s h; exact ih (stepCaller s j) (stepCaller_inv s j h)

/-- The initial system satisfies the invariant. -/
theorem initCache_inv (n : Nat) : CacheInv (initCache n) :=
  Or.inl ⟨rfl, rfl, fun _ hmem => List.eq_of_mem_replicate hmem⟩

/-- A step never changes the number of callers. -/
theorem stepCaller_length (s : CacheSystem) (j : Nat) :
    (stepCaller s j).callers.length = s.callers.length := by
  cases hp : s.callers[j]? with
  | none => rw [stepCaller_none s j hp]
  | some pc =>
    cases pc with
    | start =>
      cases hc : s.cache with
      | none => rw [stepCaller_start_miss s j hp hc]; simp
      | some h => rw [stepCaller_start_hit s j h hp hc]; simp
    | done h => rw [stepCaller_done s j h hp]

/-- A caller that has returned handle 1 keeps it through any further step. -/
theorem stepCaller_done_persists (s : CacheSystem) (i j : Nat)
    (hd : s.callers[i]? = some (.done 1)) :
    (stepCaller s j).callers[i]? = some (.done 1) := by
  cases hp : s.callers[j]? with
  | none => rw [stepCaller_none s j hp]; exact hd
  | some pc =>
    cases pc with
    | start =>
      have hji : j ≠ i := by
        intro heq
        subst heq
        rw [hd] at hp
        cases hp
      cases hc : s.cache with
      | none =>
        rw [stepCaller_start_miss s j hp hc]
        show (s.callers.set j (.done (s.created + 1)))[i]? = _
        rw [List.getElem?_set_ne hji]
        exact hd
      | some h =>
        rw [stepCaller_start_hit s j h hp hc]
        show (s.callers.set j (.done h))[i]? = _
        rw [List.getElem?_set_ne hji]
        exact hd
    | done h => rw [stepCaller_done s j h hp]; exact hd

/-- A caller that has returned handle 1 keeps it through any schedule. -/
theorem runSchedule_done_persists (sched : List Nat) :
    ∀ (s : CacheSystem) (i : Nat), s.callers[i]? = some (CallerPC.done 1) →
      (runSchedule s sched).callers[i]? = some (CallerPC.done 1) := by
  induction sched with
  | nil => intro s i hd; exact hd
  | cons j rest ih =>
    intro s i hd
    exact ih (stepCaller s j) i (stepCaller_done_persists s i j hd)

/-- Under the invariant, stepping a present caller leaves it returned with
handle 1, whether it runs the factory, reads the cache, or had already
returned. -/
theorem stepCaller_self_done (s : CacheSystem) (i : Nat) (h : CacheInv s)
    (hlen : i < s.callers.length) :
    (stepCaller s i).callers[i]? = some (.done 1) := by
  have hp : s.callers[i]? = some s.callers[i] := List.getElem?_eq_getElem hlen
  rcases h with ⟨hc, hn, hall⟩ | ⟨hc, hn, hall⟩
  · have hpc := hall s.callers[i] (List.getElem?_mem hp)
    rw [hpc] at hp
    rw [stepCaller_start_miss s i hp hc]
    show (s.callers.set i (.done (s.created + 1)))[i]? = _
    rw [hn]
    exact List.getElem?_set_self hlen
  · rcases hall s.callers[i] (List.getElem?_mem hp) with hpc | hpc <;> rw [hpc] at hp
    · rw [stepCaller_start_hit s i 1 hp hc]
      show (s.callers.set i (.done 1))[i]? = _
      exact List.getElem?_set_self hlen
    · rw [stepCaller_done s i 1 hp]
      exact hp

/-- Every caller that appears in the schedule has returned handle 1 at the
end of the run. -/
theorem runSchedule_all_done (sched : List Nat) :
    ∀ s, CacheInv s → ∀ i, i ∈ sched → i < s.callers.length →
      (runSchedule s sched).callers[i]? = some (.done 1) := by
  induction sched with
  | nil => intro s _ i hmem _; exact absurd hmem (List.not_mem_nil i)
  | cons j rest ih =>
    intro s hinv i hmem hlen
    by_cases hij : i = j
    · subst hij
      exact runSchedule_done_persists rest (stepCaller s i) i
        (stepCaller_self_done s i hinv hlen)
    · rcases List.mem_cons.mp hmem with rfl | hmem2
      · exact absurd rfl hij
      · refine ih (stepCaller s j) (stepCaller_inv s j hinv) i hmem2 ?_
        rw [stepCaller_length]
        exact hlen

/-- Claim C5: under every interleaving of any number of concurrent callers
of _get_or_create_agent (each call is one atomic step because the awaited
factory chain never suspends), the factory runs at most once, the cache only
ever holds the single handle 1, every caller that has returned holds that
same handle, and once every caller has been scheduled, all N callers have
returned handle 1: no duplicate worker is ever created. -/
theorem c5_factory_at_most_once (N : Nat) (sched : List Nat) :
    (runSchedule (initCache N) sched).created ≤ 1 ∧
    ((runSchedule (initCache N) sched).cache = none ∨
      (runSchedule (initCache N) sched).cache = some 1) ∧
    (∀ pc ∈ (runSchedule (initCache N) sched).callers,
      pc = CallerPC.start ∨ pc = CallerPC.done 1) ∧
    ((∀ i, i < N → i ∈ sched) → ∀ i, i < N →
      (runSchedule (initCache N) sched).callers[i]? =
        some (CallerPC.done 1)) := by
  have hinv := runSchedule_inv sched (initCache N) (initCache_inv N)
  refine ⟨?_, ?_, ?_, ?_⟩
  · rcases hinv with ⟨_, hn, _⟩ | ⟨_, hn, _⟩ <;> omega
  · rcases hinv with ⟨hc, _, _⟩ | ⟨hc, _, _⟩
    · exact Or.inl hc
    · exact Or.inr hc
  · rcases hinv with ⟨_, _, hall⟩ | ⟨_, _, hall⟩
    · exact fun pc hm => Or.inl (hall pc hm)
    · exact hall
  · intro hcomp i hi
    refine runSchedule_all_done sched (initCache N) (initCache_inv N) i
      (hcomp i hi) ?_
    simpa [initCache] using hi

/-- Witness for C5: two callers interleaved as second, first, second create
exactly one worker and both observe handle 1. -/
theorem c5_factory_at_most_once_witness :
    (runSchedule (initCache 2) [1, 0, 1]).created ≤ 1 ∧
    (runSchedule (initCache 2) [1, 0, 1]).callers[0]? =
      some (CallerPC.done 1) ∧
    (runSchedule (initCache 2) [1, 0, 1]).callers[1]? =
      some (CallerPC.done 1) :=
  ⟨(c5_factory_at_most_once 2 [1, 0, 1]).1,
    (c5_factory_at_most_once 2 [1, 0, 1]).2.2.2 (by decide) 0 (by decide),
    (c5_factory_at_most_once 2 [1, 0, 1]).2.2.2 (by decide) 1 (by decide)⟩
